import Mathlib

/-!
A shallow embedding of the polypong server core, translated from
`src/server/ServerGame.js` and the server entry file (socket handlers and
Fly.io instance routing).  JavaScript `Map`s become association lists,
`Set`s become duplicate-free lists, numbers become `ℚ`/`Nat`/`Int`, and
socket emissions become explicit message lists returned by each operation.
-/

namespace Polypong

/-- Match phase of a room (`gameState` string in the source). -/
inductive GState where
  | COUNTDOWN
  | PLAYING
  | SCORING
  | TERMINATED
deriving DecidableEq, Repr

/-- Ball state: position and velocity. -/
structure Ball where
  x : ℚ
  y : ℚ
  vx : ℚ
  vy : ℚ
deriving DecidableEq, Repr

/-- A paddle: its (lifetime-immutable) edge index, normalized position on
the edge, pending move direction and width. -/
structure Paddle where
  edgeIndex : Nat
  position : ℚ
  moveDirection : Int
  width : ℚ
deriving DecidableEq, Repr

/-- Modelled from the spec: the paddle width constant (`Constants.js` is not
in the sources); its exact value is immaterial to every claim. -/
def PADDLE_WIDTH : ℚ := 1/5

/-- Modelled from the spec: polygon side count fixed at room creation
(`Constants.js` / polygon construction not in the sources); the game is a
pentagon pong, so 5.  Its exact value is immaterial to every claim. -/
def POLYGON_SIDES : Nat := 5

/-- Modelled from the spec: the fixed countdown duration. -/
def COUNTDOWN_DURATION : ℚ := 3

/-- Modelled from the spec: the celebration timer counts down from a fixed
constant (e.g. 2.5s). -/
def CELEBRATION_DURATION : ℚ := 5/2

/-- Modelled from the spec: the ball state installed by a reset (held at
rest at the arena center until the phase machine restarts physics). -/
def initialBall : Ball := { x := 0, y := 0, vx := 0, vy := 0 }

/-- Modelled from the spec: `new Paddle(edgeIndex)` (`Paddle.js` is not in
the sources) — a paddle centered on its edge with no pending movement. -/
def newPaddle (edgeIndex : Nat) : Paddle :=
  { edgeIndex := edgeIndex, position := 1/2, moveDirection := 0, width := PADDLE_WIDTH }

/-- JS `Map.get`: value of the first (and in a real `Map`, only) entry with
the given key. -/
def assocGet {α : Type} (l : List (String × α)) (k : String) : Option α :=
  match l with
  | [] => none
  | (k1, v) :: rest => if k1 = k then some v else assocGet rest k

/-- JS `Map.has`. -/
def assocHas {α : Type} (l : List (String × α)) (k : String) : Bool :=
  (assocGet l k).isSome

/-- JS `Map.set`: update in place if the key is present, else append. -/
def assocSet {α : Type} (l : List (String × α)) (k : String) (v : α) :
    List (String × α) :=
  match l with
  | [] => [(k, v)]
  | (k1, v1) :: rest => if k1 = k then (k, v) :: rest else (k1, v1) :: assocSet rest k v

/-- JS `Map.delete`: remove the entry with the given key. -/
def assocDelete {α : Type} (l : List (String × α)) (k : String) :
    List (String × α) :=
  l.filter (fun kv => kv.1 ≠ k)

/-- JS `Set.add`: append the element if it is not already present. -/
def setAdd (l : List Nat) (e : Nat) : List Nat :=
  if e ∈ l then l else l ++ [e]

/-- JS `Set.delete`: remove the element. -/
def setDelete (l : List Nat) (e : Nat) : List Nat :=
  l.filter (fun x => x ≠ e)

/-- The state of one `ServerGame` room: the `ServerGame.js` constructor
fields together with the inherited simulation fields the server code reads
and writes (`gameState`, `celebrationTimer`, `restarting`, `paddles`,
`ball`, scores, timers).  The `interval` handle is modelled by the Boolean
`intervalActive` (true between `setInterval` and `clearInterval`). -/
structure ServerGame where
  players : List (String × Nat)
  readyEdges : List Nat
  running : Bool
  intervalActive : Bool
  sides : Nat
  paddles : List Paddle
  gameState : GState
  celebrationTimer : ℚ
  countdownTimer : ℚ
  restarting : Bool
  ball : Ball
  score : Nat
  lastScore : Nat
  finalTime : Int
  timeElapsed : ℚ
deriving DecidableEq, Repr

/-- Messages a room emits to its members over the socket. -/
inductive Msg where
  | gameStateMsg
  | gameEventMsg (type : String) (edgeIndex : Nat)
  | gameTerminatedMsg (reason : String) (lastScore : Nat) (finalTime : Int)
  | initMsg (playerIndex : Int) (sides : Nat)
  | errorMsg (message : String)
deriving DecidableEq, Repr

/-- `broadcastState`: emit one `gameState` snapshot to the room. -/
def broadcastState (s : ServerGame) : ServerGame × List Msg :=
  (s, [Msg.gameStateMsg])

/-- Modelled from the spec: `BaseGame.setGameState` (`BaseGame.js` is not
in the sources) — the phase is a plain enumeration value, so this assigns
it. -/
def setGameState (s : ServerGame) (g : GState) : ServerGame :=
  { s with gameState := g }

/-- Modelled from the spec: `BaseGame.resetState` (`BaseGame.js` is not in
the sources) — restart resets the simulation: ball back to its initial
rest state, score and elapsed time cleared, celebration timer cleared,
countdown timer rearmed. -/
def resetState (s : ServerGame) : ServerGame :=
  { s with ball := initialBall, score := 0, timeElapsed := 0,
           celebrationTimer := 0, countdownTimer := COUNTDOWN_DURATION }

/-- `resetGame` (ServerGame.js lines 185–211): guarded by `restarting`
(which is true only while this very function runs, and is restored to
`false` by its `finally`, so the net effect on the flag is none); forces
the phase to COUNTDOWN, resets the base simulation, clears the ready-edge
set, recenters the paddles, and broadcasts.  The `lastTime` reassignment is
a wall-clock effect with no bearing on any room field modelled here. -/
def resetGame (s : ServerGame) : ServerGame × List Msg :=
  if s.restarting then (s, [])
  else
    let s1 := setGameState s GState.COUNTDOWN
    let s2 := resetState s1
    let s3 := { s2 with readyEdges := [] }
    let s4 := { s3 with
      paddles := s3.paddles.map (fun p => { p with position := 1/2, moveDirection := 0 }) }
    (s4, [Msg.gameStateMsg])

/-- `checkAllReady` (ServerGame.js lines 73–84): no-op unless the room is
in SCORING with at least one player, the celebration timer has run out and
the room is not mid-restart; then, if every player's edge is ready, reset. -/
def checkAllReady (s : ServerGame) : ServerGame × List Msg :=
  if s.restarting then (s, [])
  else if s.gameState ≠ GState.SCORING ∨ s.players.isEmpty then (s, [])
  else if 0 < s.celebrationTimer then (s, [])
  else if s.players.all (fun p => s.readyEdges.contains p.2) then resetGame s
  else (s, [])

/-- `terminateGame` (ServerGame.js lines 86–96): absorbing TERMINATED
phase, loop stopped, one `gameTerminated` message carrying the reason, the
current score and the floored elapsed time. -/
def terminateGame (s : ServerGame) (reason : String) : ServerGame × List Msg :=
  let s1 := { setGameState s GState.TERMINATED with
              running := false, intervalActive := false }
  (s1, [Msg.gameTerminatedMsg reason s.score (Rat.floor s.timeElapsed)])

/-- `toggleReady` (ServerGame.js lines 57–71): unknown sockets are ignored;
otherwise record the toggle in the ready-edge set, broadcast, and
re-evaluate the all-ready condition. -/
def toggleReady (s : ServerGame) (socketId : String) (isReady : Bool) :
    ServerGame × List Msg :=
  match assocGet s.players socketId with
  | none => (s, [])
  | some edgeIndex =>
    let newReady :=
      if isReady then setAdd s.readyEdges edgeIndex
      else setDelete s.readyEdges edgeIndex
    let s1 := { s with readyEdges := newReady }
    let b := broadcastState s1
    let c := checkAllReady b.1
    (c.1, b.2 ++ c.2)

/-- `removePlayer` (ServerGame.js lines 41–55): unknown sockets are
ignored; otherwise free the player's map entry, readiness and paddle,
broadcast, re-evaluate the all-ready condition, and terminate the match if
this happened mid-PLAYING. -/
def removePlayer (s : ServerGame) (socketId : String) : ServerGame × List Msg :=
  match assocGet s.players socketId with
  | none => (s, [])
  | some edgeIndex =>
    let s1 := { s with players := assocDelete s.players socketId,
                       readyEdges := setDelete s.readyEdges edgeIndex,
                       paddles := s.paddles.filter (fun p => p.edgeIndex ≠ edgeIndex) }
    let b := broadcastState s1
    let c := checkAllReady b.1
    if c.1.running ∧ c.1.gameState = GState.PLAYING then
      let t := terminateGame c.1 "A player left the game"
      (t.1, b.2 ++ c.2 ++ t.2)
    else (c.1, b.2 ++ c.2)

/-- Set the `moveDirection` of the first paddle with the given edge index
(JS `paddles.find(...)` followed by the assignment). -/
def setFirstMoveDir : List Paddle → Nat → Int → List Paddle
  | [], _, _ => []
  | p :: ps, idx, dir =>
    if p.edgeIndex = idx then { p with moveDirection := dir } :: ps
    else p :: setFirstMoveDir ps idx dir

/-- `handleInput` (ServerGame.js lines 98–107): rejected while SCORING and
for unknown sockets; otherwise sets the player's paddle direction. -/
def handleInput (s : ServerGame) (socketId : String) (dir : Int) : ServerGame :=
  if s.gameState = GState.SCORING then s
  else
    match assocGet s.players socketId with
    | none => s
    | some index => { s with paddles := setFirstMoveDir s.paddles index dir }

/-- Edge indices occupied by paddles. -/
def occupiedEdges (s : ServerGame) : List Nat :=
  s.paddles.map (fun p => p.edgeIndex)

/-- Edge indices assigned to players (the values of the players map). -/
def playerEdges (s : ServerGame) : List Nat :=
  s.players.map (fun kv => kv.2)

/-- Socket ids present in the players map (the keys). -/
def playerKeys (s : ServerGame) : List String :=
  s.players.map (fun kv => kv.1)

/-- The `while (occupiedIndices.has(edgeIndex) && edgeIndex < sides)
edgeIndex++` loop of `addPlayer`. -/
def findFreeEdge (occupied : List Nat) (sides : Nat) (e : Nat) : Nat :=
  if h : e ∈ occupied ∧ e < sides then findFreeEdge occupied sides (e + 1)
  else e
termination_by sides - e
decreasing_by omega

/-- `addPlayer` (ServerGame.js lines 20–39): reject with the sentinel `-1`
when the paddle count has reached the side count (or no edge below the
side count is free); otherwise take the first available edge index, create
its paddle, record the player, and broadcast. -/
def addPlayer (s : ServerGame) (socketId : String) :
    ServerGame × List Msg × Int :=
  if s.sides ≤ s.paddles.length then (s, [], -1)
  else
    let occupied := occupiedEdges s
    let edgeIndex := findFreeEdge occupied s.sides 0
    if s.sides ≤ edgeIndex then (s, [], -1)
    else
      let s1 := { s with paddles := s.paddles ++ [newPaddle edgeIndex],
                         players := assocSet s.players socketId edgeIndex }
      (s1, [Msg.gameStateMsg], (edgeIndex : Int))

/-- `stop` (ServerGame.js lines 116–119): stop the loop. -/
def stop (s : ServerGame) : ServerGame :=
  { s with running := false, intervalActive := false }

/-- `start` (ServerGame.js lines 109–114): arm the loop. -/
def start (s : ServerGame) : ServerGame :=
  { s with running := true, intervalActive := true }

/-- The `dt` computation of `loop` (ServerGame.js lines 121–139):
milliseconds between two `performance.now()` stamps, converted to seconds
and clamped to 0.1s. -/
def computeDt (time lastTime : ℚ) : ℚ :=
  let dt := (time - lastTime) / 1000
  if 1/10 < dt then 1/10 else dt

/-- One scheduler firing of a room's interval: while the interval is
armed, run one simulation step (`update` + paddle movement, abstracted as
`advance` — its physics is irrelevant to the claims below) and broadcast;
once `clearInterval` has run, nothing fires. -/
def tick (s : ServerGame) (advance : ServerGame → ServerGame) :
    ServerGame × List Msg :=
  if s.intervalActive then (advance s, [Msg.gameStateMsg]) else (s, [])

/-- Modelled from the spec: the room state built by `new ServerGame(io,
roomId)` — the constructor fields of `ServerGame.js` lines 6–18 are in the
sources (empty players, empty ready set, not running), and the inherited
`BaseGame` initial simulation state (initial COUNTDOWN phase, no paddles,
ball at rest, timers armed) is modelled from the spec since `BaseGame.js`
is not in the sources. -/
def newServerGame : ServerGame :=
  { players := [], readyEdges := [], running := false, intervalActive := false,
    sides := POLYGON_SIDES, paddles := [], gameState := GState.COUNTDOWN,
    celebrationTimer := 0, countdownTimer := COUNTDOWN_DURATION,
    restarting := false, ball := initialBall, score := 0, lastScore := 0,
    finalTime := 0, timeElapsed := 0 }

/-- A `joinRoom` payload: the object format carries a room id and an
optional target instance tag; the legacy string format carries no tag. -/
structure JoinData where
  roomId : String
  reqInstance : Option String
deriving DecidableEq, Repr

/-- The admitted path of the `joinRoom` handler: create-and-start the room
on first join, add the player, reply with `init`. -/
def joinRoomAdmit (games : List (String × ServerGame)) (socketId roomId : String) :
    List (String × ServerGame) × List Msg :=
  let games1 :=
    if assocHas games roomId then games
    else assocSet games roomId (start newServerGame)
  match assocGet games1 roomId with
  | none => (games1, [])
  | some g =>
    let a := addPlayer g socketId
    (assocSet games1 roomId a.1, a.2.1 ++ [Msg.initMsg a.2.2 a.1.sides])

/-- The `joinRoom` socket handler of the server entry file: when a target
instance is tagged, differs from the running instance's id, and the
process is a Fly instance, reply with an error and disconnect (never
touching the room registry); otherwise admit the join. -/
def joinRoom (isFly : Bool) (instanceId : String)
    (games : List (String × ServerGame)) (socketId : String) (data : JoinData) :
    List (String × ServerGame) × List Msg :=
  match data.reqInstance with
  | some t =>
    if t ≠ instanceId ∧ isFly then
      (games, [Msg.errorMsg "Connected to wrong instance"])
    else joinRoomAdmit games socketId data.roomId
  | none => joinRoomAdmit games socketId data.roomId

/-- The `disconnect` handler of the server entry file: remove the player
from the room; if the room is now empty, stop its loop and delete it from
the registry (the stopped room object is dropped), else the registry keeps
the mutated room. -/
def onDisconnect (games : List (String × ServerGame)) (roomId socketId : String) :
    List (String × ServerGame) × List Msg :=
  match assocGet games roomId with
  | none => (games, [])
  | some g =>
    let r := removePlayer g socketId
    if r.1.players.isEmpty then (assocDelete games roomId, r.2)
    else (assocSet games roomId r.1, r.2)

/-- Apply a sequence of ready-toggles `(socketId, isReady)` to a room,
discarding emissions. -/
def applyToggles (s : ServerGame) : List (String × Bool) → ServerGame
  | [] => s
  | (sid, b) :: rest => applyToggles (toggleReady s sid b).1 rest

/-- Recognize a `gameTerminated` emission. -/
def isTerminatedMsg : Msg → Bool
  | Msg.gameTerminatedMsg _ _ _ => true
  | _ => false

/-- The invariant as the claim words it: paddle edge indices pairwise
distinct, equal as a set to the values of the players map, with the
ready-edge set a subset of the occupied edges. -/
def claimedInv (s : ServerGame) : Prop :=
  (occupiedEdges s).Nodup ∧
  (∀ e ∈ occupiedEdges s, e ∈ playerEdges s) ∧
  (∀ e ∈ playerEdges s, e ∈ occupiedEdges s) ∧
  (∀ e ∈ s.readyEdges, e ∈ occupiedEdges s)

instance (s : ServerGame) : Decidable (claimedInv s) := by
  unfold claimedInv; exact inferInstance

/-- The strengthened, inductive invariant: `claimedInv` together with the
well-formedness JavaScript provides structurally (`Map` keys unique,
`Set` duplicate-free) and the data-model rule that no two players share an
edge. -/
def fullInv (s : ServerGame) : Prop :=
  claimedInv s ∧ (playerKeys s).Nodup ∧ (playerEdges s).Nodup ∧
  s.readyEdges.Nodup

instance (s : ServerGame) : Decidable (fullInv s) := by
  unfold fullInv; exact inferInstance

/-- A paddle with whole-number coordinates, used by the concrete sample
rooms below so that every sample-room computation stays within
kernel-reducible rational arithmetic. -/
def samplePaddle (e : Nat) : Paddle :=
  { edgeIndex := e, position := 0, moveDirection := 0, width := 1 }

/-- A one-player room mid-celebration: SCORING with 2s left on the
celebration timer. -/
def sampleRoomScoring : ServerGame :=
  { players := [("a", 0)], readyEdges := [], running := true, intervalActive := true,
    sides := 3, paddles := [samplePaddle 0], gameState := GState.SCORING,
    celebrationTimer := 2, countdownTimer := 0, restarting := false,
    ball := { x := 1, y := 2, vx := 3, vy := 4 }, score := 5, lastScore := 5,
    finalTime := 30, timeElapsed := 31 }

/-- The same room once the celebration has elapsed and its player is
ready. -/
def sampleRoomReady : ServerGame :=
  { sampleRoomScoring with celebrationTimer := 0, readyEdges := [0] }

/-- The same room in COUNTDOWN. -/
def sampleRoomCountdown : ServerGame :=
  { sampleRoomScoring with gameState := GState.COUNTDOWN }

/-- A running two-player room mid-match. -/
def sampleRoomPlaying2 : ServerGame :=
  { sampleRoomScoring with
    gameState := GState.PLAYING,
    players := [("a", 0), ("b", 1)], paddles := [samplePaddle 0, samplePaddle 1] }

/-- A room whose occupied edges are 0 and 2, leaving edge 1 as the lowest
free index. -/
def sampleRoomGap : ServerGame :=
  { sampleRoomScoring with
    players := [("a", 0), ("c", 2)],
    paddles := [samplePaddle 0, samplePaddle 2], gameState := GState.PLAYING,
    running := false }

/-- A full room: three paddles on a triangle. -/
def sampleRoomFull : ServerGame :=
  { sampleRoomScoring with
    players := [("a", 0), ("b", 1), ("c", 2)],
    paddles := [samplePaddle 0, samplePaddle 1, samplePaddle 2] }

/-- A degenerate room in which two players share edge 0: it satisfies the
invariant exactly as the claim words it, yet removal breaks that
invariant. -/
def sampleRoomAlias : ServerGame :=
  { sampleRoomScoring with
    players := [("a", 0), ("b", 0)], running := false,
    gameState := GState.PLAYING }

/-- A one-room registry. -/
def sampleRegistry : List (String × ServerGame) := [("R", sampleRoomScoring)]

/-! ### Library lemmas about the JS `Map`/`Set` embeddings -/

theorem assocGet_mem {α : Type} {l : List (String × α)} {k : String} {v : α}
    (h : assocGet l k = some v) : (k, v) ∈ l := by
  induction l with
  | nil => simp [assocGet] at h
  | cons kv rest ih =>
    unfold assocGet at h
    split at h
    · rename_i heq
      simp only [Option.some.injEq] at h
      subst h; subst heq
      exact List.mem_cons_self _ _
    · exact List.mem_cons_of_mem _ (ih h)

theorem assocGet_none_not_mem {α : Type} {l : List (String × α)} {k : String}
    (h : assocGet l k = none) : ∀ v, (k, v) ∉ l := by
  induction l with
  | nil => intro v hv; simp at hv
  | cons kv rest ih =>
    unfold assocGet at h
    split at h
    · simp at h
    · rename_i hne
      intro v hv
      rcases List.mem_cons.mp hv with h1 | h1
      · apply hne; rw [← h1]
      · exact ih h v h1

theorem assocSet_of_get_none {α : Type} {l : List (String × α)} {k : String}
    (h : assocGet l k = none) (v : α) : assocSet l k v = l ++ [(k, v)] := by
  induction l with
  | nil => rfl
  | cons kv rest ih =>
    unfold assocGet at h
    split at h
    · simp at h
    · rename_i hne
      unfold assocSet
      rw [if_neg hne, ih h]
      simp

theorem assocGet_assocDelete {α : Type} (l : List (String × α)) (k : String) :
    assocGet (assocDelete l k) k = none := by
  induction l with
  | nil => rfl
  | cons kv rest ih =>
    unfold assocDelete at *
    by_cases h : kv.1 = k
    · simpa [List.filter_cons, h] using ih
    · simp only [List.filter_cons, decide_eq_true_eq]
      rw [if_pos h]
      unfold assocGet
      rw [if_neg h]
      exact ih

theorem mem_setAdd {l : List Nat} {e x : Nat} :
    x ∈ setAdd l e ↔ x ∈ l ∨ x = e := by
  unfold setAdd
  split
  · rename_i h
    constructor
    · exact Or.inl
    · rintro (hx | rfl)
      · exact hx
      · exact h
  · simp

theorem setAdd_nodup {l : List Nat} {e : Nat} (h : l.Nodup) :
    (setAdd l e).Nodup := by
  unfold setAdd
  split
  · exact h
  · rename_i hne
    simp [List.nodup_append, h, hne]

theorem mem_setDelete {l : List Nat} {e x : Nat} :
    x ∈ setDelete l e ↔ x ∈ l ∧ x ≠ e := by
  unfold setDelete
  simp [List.mem_filter]

theorem setDelete_nodup {l : List Nat} {e : Nat} (h : l.Nodup) :
    (setDelete l e).Nodup :=
  h.filter _

/-! ### Behaviour of checkAllReady away from its firing condition -/

theorem checkAllReady_timer_pos (s : ServerGame)
    (ht : 0 < s.celebrationTimer) : checkAllReady s = (s, []) := by
  simp [checkAllReady, ht]

theorem checkAllReady_nonscoring (s : ServerGame)
    (hg : s.gameState ≠ GState.SCORING) : checkAllReady s = (s, []) := by
  simp [checkAllReady, hg]

/-! ### Claim theorems -/

/-- Claim C9: on every tick, the time delta passed to the update step is
clamped to at most 0.1 seconds and, given that the millisecond clock
(`performance.now`) is monotone between the two stamps, is never
negative. -/
theorem computeDt_bounds (time lastTime : ℚ) (h : lastTime ≤ time) :
    0 ≤ computeDt time lastTime ∧ computeDt time lastTime ≤ 1/10 := by
  unfold computeDt
  dsimp only
  split
  · exact ⟨by norm_num, le_refl _⟩
  · rename_i hlt
    exact ⟨div_nonneg (by linarith) (by norm_num), le_of_not_lt hlt⟩

/-- Witness for C9 at a concrete pair of timestamps. -/
theorem computeDt_bounds_witness :
    0 ≤ computeDt 1000 500 ∧ computeDt 1000 500 ≤ 1/10 :=
  computeDt_bounds 1000 500 (by norm_num)

/-- Counterexample to claim C4 as stated: in COUNTDOWN the input of a
known connection is not ignored — it changes the paddle move direction
(the source only rejects input while SCORING). -/
theorem handleInput_countdown_cex :
    sampleRoomCountdown.gameState ≠ GState.PLAYING ∧
    sampleRoomCountdown.paddles.map Paddle.moveDirection = [0] ∧
    (handleInput sampleRoomCountdown "a" 1).paddles.map Paddle.moveDirection =
      [1] := by decide

/-- Claim C4 as amended: paddle input is silently ignored exactly when the
phase is SCORING or the connection id is unknown; in COUNTDOWN, PLAYING
and TERMINATED a known connection steers its paddle. -/
theorem handleInput_ignored (s : ServerGame) (socketId : String) (dir : Int)
    (h : s.gameState = GState.SCORING ∨ assocGet s.players socketId = none) :
    handleInput s socketId dir = s := by
  unfold handleInput
  split
  · rfl
  · rename_i hne
    rcases h with h | h
    · exact absurd h hne
    · rw [h]

/-- Witness for the amended C4: input during SCORING is dropped. -/
theorem handleInput_ignored_witness :
    handleInput sampleRoomScoring "a" 1 = sampleRoomScoring :=
  handleInput_ignored sampleRoomScoring "a" 1 (Or.inl (by decide))

/-- Counterexample to claim C3 as stated: while the celebration timer is
positive, a ready toggle from a connected player does change the
ready-edge set (the gate only suppresses the phase transition, not the
recording of readiness). -/
theorem toggleReady_celebration_cex :
    sampleRoomScoring.gameState = GState.SCORING ∧
    0 < sampleRoomScoring.celebrationTimer ∧
    (toggleReady sampleRoomScoring "a" true).1.readyEdges ≠
      sampleRoomScoring.readyEdges := by decide

/-- Claim C3 as amended: while the room is SCORING with a positive
celebration timer, a ready toggle from a connected player is recorded in
the ready-edge set (added or removed according to the flag) and a snapshot
is broadcast, but nothing else changes — in particular the phase stays
SCORING and the celebration timer is untouched. -/
theorem toggleReady_celebration_records_only (s : ServerGame)
    (socketId : String) (isReady : Bool) (e : Nat)
    (_hg : s.gameState = GState.SCORING) (ht : 0 < s.celebrationTimer)
    (hp : assocGet s.players socketId = some e) :
    toggleReady s socketId isReady =
      ({ s with readyEdges :=
          if isReady then setAdd s.readyEdges e else setDelete s.readyEdges e },
       [Msg.gameStateMsg]) := by
  unfold toggleReady
  rw [hp]
  have hfr := checkAllReady_timer_pos
    { s with readyEdges :=
        if isReady then setAdd s.readyEdges e else setDelete s.readyEdges e }
    ht
  simp only [broadcastState]
  rw [hfr]
  rfl

/-- Witness for the amended C3 at a concrete room. -/
theorem toggleReady_celebration_records_only_witness :
    toggleReady sampleRoomScoring "a" true =
      ({ sampleRoomScoring with
         readyEdges := setAdd sampleRoomScoring.readyEdges 0 },
       [Msg.gameStateMsg]) :=
  toggleReady_celebration_records_only sampleRoomScoring "a" true 0
    (by decide) (by decide) (by decide)

/-- Counterexample to claim C8 as stated: on a non-Fly process the
instance tag is deliberately ignored (local debugging), so a join tagged
for instance B while running as instance A does create the room and admit
the player. -/
theorem joinRoom_nonfly_cex :
    assocHas (joinRoom false "A" [] "s1"
      { roomId := "R", reqInstance := some "B" }).1 "R" = true ∧
    (joinRoom false "A" [] "s1"
      { roomId := "R", reqInstance := some "B" }).1 ≠ [] := by decide

/-- Claim C8 as amended: on a Fly instance, a join request tagged with a
target instance id different from the running instance id is answered
with an error and never handed to the room layer — the registry is
unchanged (no room created, no player added) and only the error message is
emitted. -/
theorem joinRoom_fly_rejects_wrong_instance (instanceId t : String)
    (games : List (String × ServerGame)) (socketId roomId : String)
    (hne : t ≠ instanceId) :
    joinRoom true instanceId games socketId
      { roomId := roomId, reqInstance := some t } =
      (games, [Msg.errorMsg "Connected to wrong instance"]) := by
  unfold joinRoom
  simp [hne]

/-- Witness for the amended C8: instance B tagged while running as A. -/
theorem joinRoom_fly_rejects_wrong_instance_witness :
    joinRoom true "A" sampleRegistry "s1"
      { roomId := "R2", reqInstance := some "B" } =
      (sampleRegistry, [Msg.errorMsg "Connected to wrong instance"]) :=
  joinRoom_fly_rejects_wrong_instance "A" "B" sampleRegistry "s1" "R2"
    (by decide)

-- A ready toggle never touches the phase or the celebration timer while
-- the timer is still positive: the all-ready evaluation is gated off.
theorem toggleReady_timer_pos_fst (s : ServerGame) (socketId : String)
    (isReady : Bool) (ht : 0 < s.celebrationTimer) :
    (toggleReady s socketId isReady).1.gameState = s.gameState ∧
    (toggleReady s socketId isReady).1.celebrationTimer = s.celebrationTimer := by
  unfold toggleReady
  cases hp : assocGet s.players socketId with
  | none => exact ⟨rfl, rfl⟩
  | some e =>
    dsimp only [broadcastState]
    rw [checkAllReady_timer_pos
      { s with readyEdges :=
          if isReady then setAdd s.readyEdges e else setDelete s.readyEdges e }
      ht]
    exact ⟨rfl, rfl⟩

/-- Claim C1: while a room is SCORING with a strictly positive celebration
timer, no sequence of ready toggles — from any players, with any flags —
can move it out of SCORING (in particular never to COUNTDOWN), and the
celebration timer itself stays positive throughout. -/
theorem scoring_frozen_under_toggles (s : ServerGame)
    (ts : List (String × Bool))
    (hg : s.gameState = GState.SCORING) (ht : 0 < s.celebrationTimer) :
    (applyToggles s ts).gameState = GState.SCORING ∧
    0 < (applyToggles s ts).celebrationTimer := by
  induction ts generalizing s with
  | nil => exact ⟨hg, ht⟩
  | cons p rest ih =>
    obtain ⟨sid, b⟩ := p
    have h12 := toggleReady_timer_pos_fst s sid b ht
    have hg1 : (toggleReady s sid b).1.gameState = GState.SCORING := by
      rw [h12.1, hg]
    have ht1 : 0 < (toggleReady s sid b).1.celebrationTimer := by
      rw [h12.2]; exact ht
    exact ih _ hg1 ht1

/-- Witness for C1: a concrete toggle burst during a live celebration. -/
theorem scoring_frozen_under_toggles_witness :
    (applyToggles sampleRoomScoring
      [("a", true), ("a", false), ("b", true)]).gameState = GState.SCORING ∧
    0 < (applyToggles sampleRoomScoring
      [("a", true), ("a", false), ("b", true)]).celebrationTimer :=
  scoring_frozen_under_toggles sampleRoomScoring
    [("a", true), ("a", false), ("b", true)] (by decide) (by decide)

/-- Claim C2: in SCORING with at least one player, a spent celebration
timer, no restart in flight, and every occupied edge ready, the very next
evaluation of the all-ready condition moves the phase to COUNTDOWN, clears
the ready-edge set, and resets the ball and the paddles (recentered, no
pending movement). -/
theorem checkAllReady_fires (s : ServerGame)
    (hr : s.restarting = false) (hg : s.gameState = GState.SCORING)
    (hne : s.players ≠ []) (ht : s.celebrationTimer = 0)
    (ha : s.players.all (fun p => s.readyEdges.contains p.2) = true) :
    (checkAllReady s).1.gameState = GState.COUNTDOWN ∧
    (checkAllReady s).1.readyEdges = [] ∧
    (checkAllReady s).1.ball = initialBall ∧
    ∀ p ∈ (checkAllReady s).1.paddles, p.position = 1/2 ∧ p.moveDirection = 0 := by
  have hne2 : s.players.isEmpty = false := by
    cases hps : s.players with
    | nil => exact absurd hps hne
    | cons a l => rfl
  have hchk : checkAllReady s = resetGame s := by
    unfold checkAllReady
    rw [hr, hg, ht, ha]
    simp [hne2]
  rw [hchk]
  unfold resetGame
  rw [if_neg (by simp [hr])]
  dsimp only
  refine ⟨rfl, rfl, rfl, ?_⟩
  intro p hp
  rw [List.mem_map] at hp
  obtain ⟨q, _, rfl⟩ := hp
  exact ⟨rfl, rfl⟩

/-- Witness for C2 at a concrete ready room. -/
theorem checkAllReady_fires_witness :
    (checkAllReady sampleRoomReady).1.gameState = GState.COUNTDOWN ∧
    (checkAllReady sampleRoomReady).1.readyEdges = [] ∧
    (checkAllReady sampleRoomReady).1.ball = initialBall ∧
    ∀ p ∈ (checkAllReady sampleRoomReady).1.paddles,
      p.position = 1/2 ∧ p.moveDirection = 0 :=
  checkAllReady_fires sampleRoomReady (by decide) (by decide) (by decide)
    (by decide) (by decide)

-- The while loop of addPlayer: its result is at least the start index,
-- at most `max start sides`, unoccupied whenever below the side count,
-- and every index it skipped was occupied.
theorem findFreeEdge_spec (occupied : List Nat) (sides e : Nat) :
    e ≤ findFreeEdge occupied sides e ∧
    findFreeEdge occupied sides e ≤ max e sides ∧
    (findFreeEdge occupied sides e < sides →
      findFreeEdge occupied sides e ∉ occupied) ∧
    (∀ k, e ≤ k → k < findFreeEdge occupied sides e → k ∈ occupied) := by
  unfold findFreeEdge
  split
  · rename_i h
    obtain ⟨hmem, hlt⟩ := h
    obtain ⟨ih1, ih2, ih3, ih4⟩ := findFreeEdge_spec occupied sides (e + 1)
    refine ⟨by omega, by omega, ih3, ?_⟩
    intro k hk1 hk2
    rcases Nat.eq_or_lt_of_le hk1 with heq | hlt2
    · rw [← heq]; exact hmem
    · exact ih4 k hlt2 hk2
  · rename_i h
    refine ⟨Nat.le_refl _, Nat.le_max_left _ _, ?_, ?_⟩
    · intro hlt hmem
      exact h ⟨hmem, hlt⟩
    · intro k hk1 hk2
      omega
termination_by sides - e
decreasing_by omega

-- Pigeonhole: fewer occupied entries than sides leaves a free index.
theorem exists_free_edge (occ : List Nat) (sides : Nat)
    (h : occ.length < sides) : ∃ k, k < sides ∧ k ∉ occ := by
  by_contra hc
  push_neg at hc
  have hsub : Finset.range sides ⊆ occ.toFinset := by
    intro k hk
    exact List.mem_toFinset.mpr (hc k (Finset.mem_range.mp hk))
  have h1 := Finset.card_le_card hsub
  rw [Finset.card_range] at h1
  have h2 := occ.toFinset_card_le
  omega

-- Below the side count, addPlayer takes the first free edge: the exact
-- resulting state, plus the freshness and minimality of the chosen edge.
theorem addPlayer_eq_of_lt (s : ServerGame) (socketId : String)
    (hlen : s.paddles.length < s.sides) :
    addPlayer s socketId =
      ({ s with
          paddles := s.paddles ++
            [newPaddle (findFreeEdge (occupiedEdges s) s.sides 0)],
          players := assocSet s.players socketId
            (findFreeEdge (occupiedEdges s) s.sides 0) },
       [Msg.gameStateMsg], ((findFreeEdge (occupiedEdges s) s.sides 0 : Nat) : Int)) ∧
    findFreeEdge (occupiedEdges s) s.sides 0 < s.sides ∧
    findFreeEdge (occupiedEdges s) s.sides 0 ∉ occupiedEdges s ∧
    ∀ k, k < findFreeEdge (occupiedEdges s) s.sides 0 → k ∈ occupiedEdges s := by
  obtain ⟨k, hk1, hk2⟩ := exists_free_edge (occupiedEdges s) s.sides
    (by simpa [occupiedEdges] using hlen)
  obtain ⟨h1, h2, h3, h4⟩ := findFreeEdge_spec (occupiedEdges s) s.sides 0
  have hrlt : findFreeEdge (occupiedEdges s) s.sides 0 < s.sides := by
    by_contra hge
    push_neg at hge
    have hreq : findFreeEdge (occupiedEdges s) s.sides 0 = s.sides := by omega
    exact hk2 (h4 k (Nat.zero_le k) (by omega))
  refine ⟨?_, hrlt, h3 hrlt, fun k2 hk2lt => h4 k2 (Nat.zero_le _) hk2lt⟩
  unfold addPlayer
  rw [if_neg (by omega)]
  dsimp only
  rw [if_neg (by omega)]

/-- Claim C5: when the occupied-edge count has reached the polygon side
count, `addPlayer` returns the sentinel `-1` and changes nothing (players
map, paddle list and ready set included) and emits nothing; otherwise it
assigns the joining connection the lowest edge index not occupied by any
existing paddle. -/
theorem addPlayer_spec (s : ServerGame) (socketId : String) :
    (s.sides ≤ s.paddles.length → addPlayer s socketId = (s, [], -1)) ∧
    (s.paddles.length < s.sides →
      ∃ e : Nat,
        addPlayer s socketId =
          ({ s with paddles := s.paddles ++ [newPaddle e],
                    players := assocSet s.players socketId e },
           [Msg.gameStateMsg], (e : Int)) ∧
        e < s.sides ∧ e ∉ occupiedEdges s ∧
        ∀ k, k < e → k ∈ occupiedEdges s) := by
  constructor
  · intro hfull
    unfold addPlayer
    rw [if_pos hfull]
  · intro hlen
    obtain ⟨heq, hlt, hnotin, hlow⟩ := addPlayer_eq_of_lt s socketId hlen
    exact ⟨findFreeEdge (occupiedEdges s) s.sides 0, heq, hlt, hnotin, hlow⟩

/-- Witness for C5: a full triangle rejects a fourth player unchanged, and
a room occupying edges 0 and 2 hands the joiner edge 1. -/
theorem addPlayer_spec_witness :
    addPlayer sampleRoomFull "d" = (sampleRoomFull, [], -1) ∧
    ∃ e : Nat,
      addPlayer sampleRoomGap "b" =
        ({ sampleRoomGap with paddles := sampleRoomGap.paddles ++ [newPaddle e],
                              players := assocSet sampleRoomGap.players "b" e },
         [Msg.gameStateMsg], (e : Int)) ∧
      e < sampleRoomGap.sides ∧ e ∉ occupiedEdges sampleRoomGap ∧
      ∀ k, k < e → k ∈ occupiedEdges sampleRoomGap :=
  ⟨(addPlayer_spec sampleRoomFull "d").1 (by decide),
   (addPlayer_spec sampleRoomGap "b").2 (by decide)⟩

-- Neither the all-ready evaluation nor a game reset ever touches the
-- players map.
theorem checkAllReady_players (s : ServerGame) :
    (checkAllReady s).1.players = s.players := by
  unfold checkAllReady resetGame
  split_ifs <;> rfl

-- Removing a known player leaves exactly the map with its entry deleted,
-- whatever else the removal triggers.
theorem removePlayer_players_of_get (s : ServerGame) (socketId : String)
    (e : Nat) (hp : assocGet s.players socketId = some e) :
    (removePlayer s socketId).1.players = assocDelete s.players socketId := by
  unfold removePlayer
  rw [hp]
  dsimp only [broadcastState]
  split <;> (dsimp only [terminateGame, setGameState]; rw [checkAllReady_players])

-- Removing a known player during a running PLAYING match: the full
-- resulting state and emission sequence.
theorem removePlayer_playing_eq (s : ServerGame) (socketId : String) (e : Nat)
    (hp : assocGet s.players socketId = some e) (hr : s.running = true)
    (hg : s.gameState = GState.PLAYING) :
    removePlayer s socketId =
      ({ s with players := assocDelete s.players socketId,
                readyEdges := setDelete s.readyEdges e,
                paddles := s.paddles.filter (fun p => p.edgeIndex ≠ e),
                gameState := GState.TERMINATED,
                running := false, intervalActive := false },
       [Msg.gameStateMsg,
        Msg.gameTerminatedMsg "A player left the game" s.score
          (Rat.floor s.timeElapsed)]) := by
  unfold removePlayer
  rw [hp]
  dsimp only [broadcastState]
  rw [checkAllReady_nonscoring
    { s with players := assocDelete s.players socketId,
             readyEdges := setDelete s.readyEdges e,
             paddles := s.paddles.filter (fun p => p.edgeIndex ≠ e) }
    (show s.gameState ≠ GState.SCORING by rw [hg]; decide)]
  dsimp only
  rw [hr, hg]
  simp only [and_self, if_true]
  dsimp only [terminateGame, setGameState]
  rfl

/-- Counterexample to claim C6 as stated: in a two-player room mid-match,
the first disconnect terminates the game with exactly one gameTerminated
emission, yet a later gameState broadcast for the same room still occurs —
the second disconnect triggers one (every player operation broadcasts a
snapshot even after termination). -/
theorem removePlayer_later_broadcast_cex :
    (removePlayer sampleRoomPlaying2 "a").1.gameState = GState.TERMINATED ∧
    List.countP isTerminatedMsg (removePlayer sampleRoomPlaying2 "a").2 = 1 ∧
    Msg.gameStateMsg ∈
      (removePlayer (removePlayer sampleRoomPlaying2 "a").1 "b").2 := by
  decide

/-- Claim C6 as amended: removing a connected player from a running
PLAYING room transitions it to TERMINATED and emits exactly one
gameTerminated message in that call, carrying the reason, the score and
the floored final time; the tick loop is stopped, so no further
tick-driven gameState broadcasts occur.  (Explicit player operations on
the dead room, such as removing the remaining players, do still emit
gameState snapshots.) -/
theorem removePlayer_playing_terminates (s : ServerGame) (socketId : String)
    (e : Nat) (hp : assocGet s.players socketId = some e)
    (hr : s.running = true) (hg : s.gameState = GState.PLAYING) :
    (removePlayer s socketId).1.gameState = GState.TERMINATED ∧
    (removePlayer s socketId).1.running = false ∧
    (removePlayer s socketId).1.intervalActive = false ∧
    List.countP isTerminatedMsg (removePlayer s socketId).2 = 1 ∧
    Msg.gameTerminatedMsg "A player left the game" s.score
      (Rat.floor s.timeElapsed) ∈ (removePlayer s socketId).2 ∧
    ∀ advance, tick (removePlayer s socketId).1 advance =
      ((removePlayer s socketId).1, []) := by
  rw [removePlayer_playing_eq s socketId e hp hr hg]
  refine ⟨rfl, rfl, rfl, rfl, by simp, fun advance => rfl⟩

/-- Witness for the amended C6 on a concrete two-player match. -/
theorem removePlayer_playing_terminates_witness :
    (removePlayer sampleRoomPlaying2 "a").1.gameState = GState.TERMINATED ∧
    (removePlayer sampleRoomPlaying2 "a").1.running = false ∧
    (removePlayer sampleRoomPlaying2 "a").1.intervalActive = false ∧
    List.countP isTerminatedMsg (removePlayer sampleRoomPlaying2 "a").2 = 1 ∧
    Msg.gameTerminatedMsg "A player left the game" sampleRoomPlaying2.score
      (Rat.floor sampleRoomPlaying2.timeElapsed) ∈
      (removePlayer sampleRoomPlaying2 "a").2 ∧
    ∀ advance, tick (removePlayer sampleRoomPlaying2 "a").1 advance =
      ((removePlayer sampleRoomPlaying2 "a").1, []) :=
  removePlayer_playing_terminates sampleRoomPlaying2 "a" 0 (by decide)
    (by decide) (by decide)

/-- Claim C7: removing the last player of a room — whatever the phase —
destroys the room: the disconnect handler stops the loop and deletes the
registry entry the moment the player count reaches zero, so no lookup for
the room succeeds afterwards, and a stopped loop never fires a tick
(whatever the physics step would have been). -/
theorem last_player_disconnect_destroys_room
    (games : List (String × ServerGame)) (roomId socketId : String)
    (g : ServerGame) (e : Nat)
    (hg : assocGet games roomId = some g)
    (hp : assocGet g.players socketId = some e)
    (hdel : assocDelete g.players socketId = []) :
    assocGet (onDisconnect games roomId socketId).1 roomId = none ∧
    ∀ h advance, tick (stop h) advance = (stop h, []) := by
  constructor
  · unfold onDisconnect
    rw [hg]
    dsimp only
    have hpl : (removePlayer g socketId).1.players = [] := by
      rw [removePlayer_players_of_get g socketId e hp, hdel]
    rw [hpl]
    simp only [List.isEmpty_nil, if_true]
    exact assocGet_assocDelete games roomId
  · intro h advance
    rfl

/-- Witness for C7: the single player of the sample registry room
disconnects. -/
theorem last_player_disconnect_destroys_room_witness :
    assocGet (onDisconnect sampleRegistry "R" "a").1 "R" = none ∧
    ∀ h advance, tick (stop h) advance = (stop h, []) :=
  last_player_disconnect_destroys_room sampleRegistry "R" "a"
    sampleRoomScoring 0 (by decide) (by decide) (by decide)

-- With duplicate-free keys, membership determines the lookup result.
theorem assocGet_eq_of_mem_nodup {α : Type} {l : List (String × α)}
    (hnd : (l.map (fun kv => kv.1)).Nodup) {k : String} {v : α}
    (hm : (k, v) ∈ l) : assocGet l k = some v := by
  induction l with
  | nil => simp at hm
  | cons kv rest ih =>
    rw [List.map_cons, List.nodup_cons] at hnd
    unfold assocGet
    rcases List.mem_cons.mp hm with h1 | h1
    · rw [← h1]
      simp
    · split
      · rename_i heq
        exfalso
        apply hnd.1
        rw [heq]
        exact List.mem_map.mpr ⟨(k, v), h1, rfl⟩
      · exact ih hnd.2 h1

-- A reset keeps paddle edges and players intact and empties the ready
-- set, so it preserves the full invariant.
theorem fullInv_resetGame (s : ServerGame) (h : fullInv s) :
    fullInv (resetGame s).1 := by
  by_cases hres : s.restarting
  · unfold resetGame
    rw [if_pos hres]
    exact h
  · have e1 : occupiedEdges (resetGame s).1 = occupiedEdges s := by
      unfold resetGame
      rw [if_neg hres]
      simp [occupiedEdges, List.map_map, Function.comp, resetState, setGameState]
    have e2 : playerEdges (resetGame s).1 = playerEdges s := by
      unfold resetGame
      rw [if_neg hres]
      rfl
    have e3 : playerKeys (resetGame s).1 = playerKeys s := by
      unfold resetGame
      rw [if_neg hres]
      rfl
    have e4 : (resetGame s).1.readyEdges = [] := by
      unfold resetGame
      rw [if_neg hres]
    obtain ⟨⟨h1, h2, h3, _⟩, hk, hv, _⟩ := h
    unfold fullInv claimedInv
    rw [e1, e2, e3, e4]
    exact ⟨⟨h1, h2, h3, by simp⟩, hk, hv, List.nodup_nil⟩

-- The all-ready evaluation either does nothing or resets.
theorem fullInv_checkAllReady (s : ServerGame) (h : fullInv s) :
    fullInv (checkAllReady s).1 := by
  unfold checkAllReady
  split_ifs <;> first | exact h | exact fullInv_resetGame s h

-- Termination only flips phase and loop flags.
theorem fullInv_terminateGame (s : ServerGame) (reason : String)
    (h : fullInv s) : fullInv (terminateGame s reason).1 := h

-- A ready toggle for a connected player only adds or removes one of the
-- occupied edges in the (duplicate-free) ready set.
theorem fullInv_toggleReady (s : ServerGame) (socketId : String) (b : Bool)
    (h : fullInv s) : fullInv (toggleReady s socketId b).1 := by
  unfold toggleReady
  cases hp : assocGet s.players socketId with
  | none => exact h
  | some e =>
    dsimp only [broadcastState]
    have he : e ∈ playerEdges s :=
      List.mem_map.mpr ⟨(socketId, e), assocGet_mem hp, rfl⟩
    have heo : e ∈ occupiedEdges s := h.1.2.2.1 e he
    have hXgen : ∀ r : List Nat, (∀ x ∈ r, x ∈ occupiedEdges s) → r.Nodup →
        fullInv { s with readyEdges := r } := by
      intro r hsub hnd
      obtain ⟨⟨h1, h2, h3, _⟩, hk, hv, _⟩ := h
      exact ⟨⟨h1, h2, h3, hsub⟩, hk, hv, hnd⟩
    refine fullInv_checkAllReady _ (hXgen _ ?_ ?_)
    · intro x hx
      cases b with
      | true =>
        rcases mem_setAdd.mp hx with hx1 | hx1
        · exact h.1.2.2.2 x hx1
        · rw [hx1]
          exact heo
      | false =>
        exact h.1.2.2.2 x (mem_setDelete.mp hx).1
    · cases b with
      | true => exact setAdd_nodup h.2.2.2
      | false => exact setDelete_nodup h.2.2.2

-- Deleting a connected player removes exactly its edge from both the
-- paddle occupancy and the players-map values, so the full invariant is
-- preserved (shared-edge aliasing is excluded by value distinctness).
theorem fullInv_removePlayer (s : ServerGame) (socketId : String)
    (h : fullInv s) : fullInv (removePlayer s socketId).1 := by
  unfold removePlayer
  cases hp : assocGet s.players socketId with
  | none => exact h
  | some e =>
    dsimp only [broadcastState]
    obtain ⟨⟨h1, h2, h3, h4⟩, hk, hv, hrn⟩ := h
    have hmem : (socketId, e) ∈ s.players := assocGet_mem hp
    have hoccX : ∀ x,
        x ∈ (s.paddles.filter (fun p => p.edgeIndex ≠ e)).map (fun p => p.edgeIndex) ↔
        x ∈ occupiedEdges s ∧ x ≠ e := by
      intro x
      constructor
      · intro hx
        obtain ⟨p, hpmem, rfl⟩ := List.mem_map.mp hx
        have hf := List.mem_filter.mp hpmem
        refine ⟨List.mem_map.mpr ⟨p, hf.1, rfl⟩, by simpa using hf.2⟩
      · rintro ⟨hx1, hne⟩
        obtain ⟨p, hpmem, rfl⟩ := List.mem_map.mp hx1
        exact List.mem_map.mpr
          ⟨p, List.mem_filter.mpr ⟨hpmem, by simpa using hne⟩, rfl⟩
    have hpeX : ∀ x,
        x ∈ (assocDelete s.players socketId).map (fun kv => kv.2) ↔
        ∃ kv, kv ∈ s.players ∧ kv.1 ≠ socketId ∧ kv.2 = x := by
      intro x
      unfold assocDelete
      constructor
      · intro hx
        obtain ⟨kv, hkvmem, rfl⟩ := List.mem_map.mp hx
        have hf := List.mem_filter.mp hkvmem
        exact ⟨kv, hf.1, by simpa using hf.2, rfl⟩
      · rintro ⟨kv, hkvmem, hkne, rfl⟩
        exact List.mem_map.mpr
          ⟨kv, List.mem_filter.mpr ⟨hkvmem, by simpa using hkne⟩, rfl⟩
    have hval : ∀ kv, kv ∈ s.players → kv.2 = e → kv.1 = socketId := by
      intro kv hkvmem hkv2
      have hkv := List.inj_on_of_nodup_map hv hkvmem hmem hkv2
      rw [hkv]
    have hkuniq : ∀ kv, kv ∈ s.players → kv.1 = socketId → kv.2 = e := by
      intro kv hkvmem hkv1
      have hget : assocGet s.players kv.1 = some kv.2 :=
        assocGet_eq_of_mem_nodup hk hkvmem
      rw [hkv1, hp] at hget
      injection hget with h5
      exact h5.symm
    have hX : fullInv { s with
        players := assocDelete s.players socketId,
        readyEdges := setDelete s.readyEdges e,
        paddles := s.paddles.filter (fun p => p.edgeIndex ≠ e) } := by
      refine ⟨⟨?_, ?_, ?_, ?_⟩, ?_, ?_, ?_⟩
      · exact h1.sublist ((List.filter_sublist _).map _)
      · intro x hx
        obtain ⟨hxo, hxne⟩ := (hoccX x).mp hx
        obtain ⟨kv, hkvmem, hkv2⟩ := List.mem_map.mp (h2 x hxo)
        refine (hpeX x).mpr ⟨kv, hkvmem, ?_, hkv2⟩
        intro hkv1
        exact hxne (by rw [← hkv2]; exact hkuniq kv hkvmem hkv1)
      · intro x hx
        obtain ⟨kv, hkvmem, hkne, hkv2⟩ := (hpeX x).mp hx
        refine (hoccX x).mpr ⟨h3 x (List.mem_map.mpr ⟨kv, hkvmem, hkv2⟩), ?_⟩
        intro hxe
        exact hkne (hval kv hkvmem (by rw [hkv2, hxe]))
      · intro x hx
        obtain ⟨hx1, hx2⟩ := mem_setDelete.mp hx
        exact (hoccX x).mpr ⟨h4 x hx1, hx2⟩
      · exact hk.sublist ((List.filter_sublist _).map _)
      · exact hv.sublist ((List.filter_sublist _).map _)
      · exact setDelete_nodup hrn
    split
    · exact fullInv_terminateGame _ "A player left the game"
        (fullInv_checkAllReady _ hX)
    · exact fullInv_checkAllReady _ hX

-- Admitting a fresh connection appends one unoccupied edge to both views
-- of the occupancy, so the full invariant is preserved.
theorem fullInv_addPlayer (s : ServerGame) (socketId : String)
    (hfresh : assocGet s.players socketId = none) (h : fullInv s) :
    fullInv (addPlayer s socketId).1 := by
  rcases Nat.lt_or_ge s.paddles.length s.sides with hlt | hge
  · obtain ⟨heq, hrlt, hrnot, hrlow⟩ := addPlayer_eq_of_lt s socketId hlt
    rw [heq]
    obtain ⟨⟨h1, h2, h3, h4⟩, hk, hv, hrn⟩ := h
    have hset : assocSet s.players socketId
        (findFreeEdge (occupiedEdges s) s.sides 0) =
        s.players ++ [(socketId, findFreeEdge (occupiedEdges s) s.sides 0)] :=
      assocSet_of_get_none hfresh _
    have hknot : socketId ∉ playerKeys s := by
      intro hkin
      obtain ⟨kv, hkvmem, hkv1⟩ := List.mem_map.mp hkin
      have : (socketId, kv.2) ∈ s.players := by
        rw [← hkv1]
        exact hkvmem
      exact assocGet_none_not_mem hfresh kv.2 this
    have hvnot : findFreeEdge (occupiedEdges s) s.sides 0 ∉ playerEdges s := by
      intro hvin
      exact hrnot (h3 _ hvin)
    have e1 : occupiedEdges { s with
        paddles := s.paddles ++ [newPaddle (findFreeEdge (occupiedEdges s) s.sides 0)],
        players := assocSet s.players socketId (findFreeEdge (occupiedEdges s) s.sides 0) } =
        occupiedEdges s ++ [findFreeEdge (occupiedEdges s) s.sides 0] := by
      simp [occupiedEdges, newPaddle]
    have e2 : playerEdges { s with
        paddles := s.paddles ++ [newPaddle (findFreeEdge (occupiedEdges s) s.sides 0)],
        players := assocSet s.players socketId (findFreeEdge (occupiedEdges s) s.sides 0) } =
        playerEdges s ++ [findFreeEdge (occupiedEdges s) s.sides 0] := by
      show (assocSet s.players socketId _).map _ = _
      rw [hset]
      simp [playerEdges]
    have e3 : playerKeys { s with
        paddles := s.paddles ++ [newPaddle (findFreeEdge (occupiedEdges s) s.sides 0)],
        players := assocSet s.players socketId (findFreeEdge (occupiedEdges s) s.sides 0) } =
        playerKeys s ++ [socketId] := by
      show (assocSet s.players socketId _).map _ = _
      rw [hset]
      simp [playerKeys]
    unfold fullInv claimedInv
    rw [e1, e2, e3]
    refine ⟨⟨?_, ?_, ?_, ?_⟩, ?_, ?_, hrn⟩
    · rw [List.nodup_append]
      exact ⟨h1, List.nodup_singleton _, by simpa using fun hmem => hrnot hmem⟩
    · intro x hx
      rw [List.mem_append] at hx ⊢
      rcases hx with hx | hx
      · exact Or.inl (h2 x hx)
      · exact Or.inr hx
    · intro x hx
      rw [List.mem_append] at hx ⊢
      rcases hx with hx | hx
      · exact Or.inl (h3 x hx)
      · exact Or.inr hx
    · intro x hx
      rw [List.mem_append]
      exact Or.inl (h4 x hx)
    · rw [List.nodup_append]
      exact ⟨hk, List.nodup_singleton _, by simpa using fun hmem => hknot hmem⟩
    · rw [List.nodup_append]
      exact ⟨hv, List.nodup_singleton _, by simpa using fun hmem => hvnot hmem⟩
  · unfold addPlayer
    rw [if_pos hge]
    exact h

/-- Counterexample to claim C10 as stated: the invariant as worded (paddle
edges pairwise distinct and equal, as a set, to the players-map values;
ready set a subset) is NOT preserved by `removePlayer` on its own — in a
room where two players alias edge 0 over a single paddle (a state the
worded invariant does not exclude), removing one of them deletes the
paddle while the other player keeps the edge. -/
theorem claimed_invariant_not_preserved_cex :
    claimedInv sampleRoomAlias ∧
    ¬ claimedInv (removePlayer sampleRoomAlias "a").1 := by decide

/-- Claim C10 as amended: the room operations preserve the invariant once
it is strengthened with the well-formedness the JavaScript runtime and the
data model already guarantee — map keys unique, no two players share an
edge, ready set duplicate-free — and, for `addPlayer`, that the joining
connection id is not already present: then paddle edges stay pairwise
distinct and equal, as a set, to the players-map values, and the ready
set stays a subset of the occupied edges. -/
theorem ops_preserve_full_invariant (s : ServerGame) (socketId : String)
    (b : Bool) (h : fullInv s) :
    fullInv (toggleReady s socketId b).1 ∧
    fullInv (removePlayer s socketId).1 ∧
    fullInv (resetGame s).1 ∧
    (assocGet s.players socketId = none → fullInv (addPlayer s socketId).1) :=
  ⟨fullInv_toggleReady s socketId b h, fullInv_removePlayer s socketId h,
   fullInv_resetGame s h, fun hfresh => fullInv_addPlayer s socketId hfresh h⟩

/-- Witness for the amended C10: once with a connected id (exercising the
toggle and removal paths) and once with a fresh id (exercising the join
path). -/
theorem ops_preserve_full_invariant_witness :
    (fullInv (toggleReady sampleRoomScoring "a" true).1 ∧
     fullInv (removePlayer sampleRoomScoring "a").1 ∧
     fullInv (resetGame sampleRoomScoring).1 ∧
     (assocGet sampleRoomScoring.players "a" = none →
       fullInv (addPlayer sampleRoomScoring "a").1)) ∧
    (fullInv (toggleReady sampleRoomScoring "z" true).1 ∧
     fullInv (removePlayer sampleRoomScoring "z").1 ∧
     fullInv (resetGame sampleRoomScoring).1 ∧
     (assocGet sampleRoomScoring.players "z" = none →
       fullInv (addPlayer sampleRoomScoring "z").1)) :=
  ⟨ops_preserve_full_invariant sampleRoomScoring "a" true (by decide),
   ops_preserve_full_invariant sampleRoomScoring "z" true (by decide)⟩

end Polypong
